import Mathlib

/-!
A verification development for the FreeDrive storage backend: the storage
allocation and capacity tracking subsystem (repository selection, rotation,
size accounting, reconciliation, retries, and the upload/delete coordinator).

Numeric fields (sizes in megabytes/bytes) are modelled as rationals,
timestamps as naturals, and database rows as Lean structures mirroring the
`repos`/`files` tables.
-/

namespace FreeDrive

/-- A row of the `repos` table: identifier, owning user, name, cached used
size (MB), maximum size (MB), active flag and creation timestamp. -/
structure Repo where
  id : Nat
  user_id : String
  name : String
  size_mb : ℚ
  max_size_mb : ℚ
  is_active : Bool
  created_at : Nat
deriving DecidableEq

/-- A row of the `files` table, with the fields the delete path consults:
`repo_id` and `gh_asset_id` are optional because the code guards on their
presence before using them. -/
structure FileRec where
  id : Nat
  user_id : String
  repo_id : Option Nat
  size_mb : ℚ
  gh_asset_id : Option Nat
deriving DecidableEq

/-! ## Constants (backend/utils/constants.js, with default configuration) -/

/-- `MAX_REPO_SIZE_BYTES = (MAX_REPO_SIZE_MB || 800) * 1024 * 1024`, default
configuration. -/
def MAX_REPO_SIZE_BYTES : ℚ := 800 * 1024 * 1024

/-- `MAX_RETRIES = 3`. -/
def MAX_RETRIES : Nat := 3

/-- `RETRY_DELAY_MS = 1000`. -/
def RETRY_DELAY_MS : Nat := 1000

/-! ## Helpers (backend/utils/helpers.js) -/

/-- `Helpers.bytesToMb`: division by 1024². -/
def bytesToMb (bytes : ℚ) : ℚ := bytes / (1024 * 1024)

/-- `Helpers.generateRepoName`'s user-id cleanup: strip non-alphanumeric
characters and truncate to 20 characters. -/
def cleanUserId (uid : String) : String :=
  String.mk ((uid.data.filter Char.isAlphanum).take 20)

/-- `Helpers.generateRepoName userId bucketNumber`. -/
def generateRepoName (uid : String) (bucket : Nat) : String :=
  "user_" ++ cleanUserId uid ++ "_bucket_" ++ toString bucket

/-! ## Record store client (backend/services/supabase.js) -/

/-- The rows the `getAvailableRepository` query selects: the user's rows with
`is_active = true` (in table order, before the `ORDER BY`). -/
def userActiveRepos (db : List Repo) (uid : String) : List Repo :=
  db.filter (fun r => r.user_id == uid && r.is_active)

/-- The rows `getUserRepositories(userId)` selects (no active-only filter). -/
def userRepos (db : List Repo) (uid : String) : List Repo :=
  db.filter (fun r => r.user_id == uid)

/-- The `ORDER BY created_at ASC` ordering of the repository queries. -/
def createdLe (a b : Repo) : Prop := a.created_at ≤ b.created_at

instance : DecidableRel createdLe := fun a b => Nat.decLe a.created_at b.created_at

instance : IsTotal Repo createdLe := ⟨fun a b => Nat.le_total a.created_at b.created_at⟩

instance : IsTrans Repo createdLe := ⟨fun _ _ _ h h2 => Nat.le_trans h h2⟩

/-- The user's active repositories in ascending `created_at` order, as the
query returns them. -/
def sortedActiveRepos (db : List Repo) (uid : String) : List Repo :=
  (userActiveRepos db uid).insertionSort createdLe

/-- The hard capacity check of `supabase.getAvailableRepository`:
`repo.size_mb + requiredSpaceMb <= repo.max_size_mb`. -/
def hasSpace (r : Repo) (req : ℚ) : Bool :=
  decide (r.size_mb + req ≤ r.max_size_mb)

namespace Supabase

/-- `supabase.getAvailableRepository(userId, requiredSpaceMb)`: select the
user's active repositories ordered by `created_at` ascending and return the
first with `size_mb + requiredSpaceMb <= max_size_mb`, else null. -/
def getAvailableRepository (db : List Repo) (uid : String) (req : ℚ) : Option Repo :=
  (sortedActiveRepos db uid).find? (fun r => hasSpace r req)

end Supabase

/-- On a list sorted by creation time, `find?` returns an element whose
creation time is minimal among all elements satisfying the predicate. -/
theorem find?_sorted_created_min {p : Repo → Bool} :
    ∀ {l : List Repo}, l.Sorted createdLe → ∀ {a : Repo}, l.find? p = some a →
      ∀ b ∈ l, p b = true → a.created_at ≤ b.created_at := by
  intro l
  induction l with
  | nil => intro _ a ha; simp at ha
  | cons x t ih =>
    intro hs a ha b hb hpb
    rw [List.sorted_cons] at hs
    by_cases hx : p x = true
    · rw [List.find?_cons_of_pos _ hx] at ha
      cases ha
      rcases List.mem_cons.mp hb with rfl | hb2
      · exact Nat.le_refl _
      · exact hs.1 b hb2
    · rw [List.find?_cons_of_neg _ hx] at ha
      rcases List.mem_cons.mp hb with rfl | hb2
      · exact absurd hpb hx
      · exact ih hs.2 ha b hb2 hpb

/-- C1: `getAvailableRepository` scans the user's active repositories in
ascending creation order and returns the first repository whose cached used
size plus the required size is at most its maximum size; with two qualifying
repositories the earlier-created one is chosen; with no qualifying active
repository it returns none. -/
theorem C1_capacity_tracker_first_fit (db : List Repo) (uid : String) (req : ℚ) :
    (Supabase.getAvailableRepository db uid req = none ↔
        ∀ r ∈ userActiveRepos db uid, ¬ (r.size_mb + req ≤ r.max_size_mb)) ∧
    (∀ a : Repo, Supabase.getAvailableRepository db uid req = some a →
        a ∈ userActiveRepos db uid ∧ a.size_mb + req ≤ a.max_size_mb ∧
        ∀ b ∈ userActiveRepos db uid, b.size_mb + req ≤ b.max_size_mb →
          a.created_at ≤ b.created_at) := by
  have hperm : List.Perm (sortedActiveRepos db uid) (userActiveRepos db uid) :=
    List.perm_insertionSort createdLe (userActiveRepos db uid)
  constructor
  · rw [Supabase.getAvailableRepository, List.find?_eq_none]
    constructor
    · intro h r hr hq
      exact h r (hperm.mem_iff.mpr hr) (by simpa [hasSpace] using hq)
    · intro h r hr hq
      exact h r (hperm.mem_iff.mp hr) (by simpa [hasSpace] using hq)
  · intro a ha
    simp only [Supabase.getAvailableRepository] at ha
    have hmem : a ∈ sortedActiveRepos db uid :=
      @List.mem_of_find?_eq_some _ (fun r => hasSpace r req) a (sortedActiveRepos db uid) ha
    have hq : hasSpace a req = true :=
      @List.find?_some _ (fun r => hasSpace r req) a (sortedActiveRepos db uid) ha
    refine ⟨hperm.mem_iff.mp hmem, by simpa [hasSpace] using hq, ?_⟩
    intro b hb hbq
    exact find?_sorted_created_min
      (List.sorted_insertionSort createdLe (userActiveRepos db uid)) ha
      b (hperm.mem_iff.mpr hb) (by simpa [hasSpace] using hbq)

/-- A concrete two-repository database for exercising C1: both repositories
are active, owned by "u", empty, with default capacity; `repoA` was created
before `repoB`. -/
def repoA : Repo :=
  { id := 1, user_id := "u", name := "user_u_bucket_1", size_mb := 0,
    max_size_mb := 800, is_active := true, created_at := 10 }

def repoB : Repo :=
  { id := 2, user_id := "u", name := "user_u_bucket_2", size_mb := 0,
    max_size_mb := 800, is_active := true, created_at := 20 }

def dbAB : List Repo := [repoB, repoA]

/-- C1 witness: in a database where `repoA` (older) and `repoB` (newer) both
qualify for a 1 MB file, the scan picks a repository no newer than either. -/
theorem C1_capacity_tracker_first_fit_witness :
    repoA ∈ userActiveRepos dbAB "u" ∧ repoA.created_at ≤ repoB.created_at :=
  ⟨((C1_capacity_tracker_first_fit dbAB "u" 1).2 repoA (by
      simp [Supabase.getAvailableRepository, sortedActiveRepos, userActiveRepos,
        dbAB, List.insertionSort, List.orderedInsert, createdLe, repoA, repoB,
        hasSpace])).1,
   ((C1_capacity_tracker_first_fit dbAB "u" 1).2 repoA (by
      simp [Supabase.getAvailableRepository, sortedActiveRepos, userActiveRepos,
        dbAB, List.insertionSort, List.orderedInsert, createdLe, repoA, repoB,
        hasSpace])).2.2 repoB (by simp [userActiveRepos, dbAB, repoA, repoB])
     (by norm_num [repoB])⟩

/-! ## Repository manager (backend/services/repoManager.js) -/

/-- `repoManager.updateRepositorySize`: the new cached size is computed as
`Math.max(0, currentRepo.size_mb + sizeChangeMb)` and then written
unconditionally. -/
def updateRepositorySizeCalc (currentSizeMb sizeChangeMb : ℚ) : ℚ :=
  max 0 (currentSizeMb + sizeChangeMb)

/-- `repoManager.shouldRotateRepository(repository, additionalSizeMb)`:
true when size after upload exceeds 90% of the maximum, where a falsy
(zero) `max_size_mb` falls back to `bytesToMb(MAX_REPO_SIZE_BYTES)`. -/
def shouldRotateRepository (repository : Repo) (additionalSizeMb : ℚ) : Bool :=
  let totalSizeAfterUpload := repository.size_mb + additionalSizeMb
  let maxSize := if repository.max_size_mb = 0 then bytesToMb MAX_REPO_SIZE_BYTES
    else repository.max_size_mb
  decide (totalSizeAfterUpload > maxSize * (9 / 10))

/-! ## GitHub client, delete path (backend/services/github.js) -/

/-- Outcome of the remote `deleteReleaseAsset` API call. -/
inductive GhDeleteOutcome where
  | ok
  | notFound
  | otherError (status : Nat)
deriving DecidableEq

/-- `github.deleteReleaseAsset`: a 404 ("already deleted or not found")
returns normally; any other API error is rethrown (as its status). -/
def deleteReleaseAsset : GhDeleteOutcome → Except Nat Unit
  | GhDeleteOutcome.ok => Except.ok ()
  | GhDeleteOutcome.notFound => Except.ok ()
  | GhDeleteOutcome.otherError status => Except.error status

/-! ## File manager coordinator (backend/services/fileManager.js) -/

/-- What `fileManager.uploadFile` does between choosing a repository and
returning: the rotation check, the (possible) in-place mutation of the
`id`/`name` fields of the in-memory repository object, the `repoId` stored
with the file record, the target and delta of the size update, and the
`sizeAfterUpload` reported in the result. -/
structure UploadOutcome where
  finalRepo : Repo
  fileRepoId : Nat
  sizeUpdateTarget : Nat
  sizeUpdateDelta : ℚ
  sizeAfterUpload : ℚ
  rotated : Bool
deriving DecidableEq

/-- `fileManager.uploadFile` core: if `shouldRotateRepository` fires, a new
repository is created and only `repository.id` and `repository.name` are
overwritten with the new repository's values; the file record and the size
update then use `repository.id`, and the result reports
`repository.size_mb + fileSizeMb`. -/
def uploadFileCore (repository newRepo : Repo) (fileSizeMb : ℚ) : UploadOutcome :=
  let rotated := shouldRotateRepository repository fileSizeMb
  let repository1 :=
    if rotated then { repository with id := newRepo.id, name := newRepo.name }
    else repository
  { finalRepo := repository1
  , fileRepoId := repository1.id
  , sizeUpdateTarget := repository1.id
  , sizeUpdateDelta := fileSizeMb
  , sizeAfterUpload := repository1.size_mb + fileSizeMb
  , rotated := rotated }

/-- What `fileManager.deleteFile` does after the ownership-scoped lookup
succeeds: the remote delete attempt is wrapped in try/catch and any error is
only warned about, then the metadata row is deleted and, when the deleted
row carries a `repo_id`, the counter is decremented by its `size_mb`. -/
structure DeleteOutcome where
  success : Bool
  dbDeleted : Bool
  ghErrorSwallowed : Bool
  sizeUpdate : Option (Nat × ℚ)
deriving DecidableEq

/-- `fileManager.deleteFile` core (after a successful lookup): the GitHub
deletion is attempted only when `gh_asset_id` is present, its failure is
caught and swallowed, and metadata deletion plus counter decrement proceed
unconditionally. -/
def deleteFileCore (fr : FileRec) (gh : GhDeleteOutcome) : DeleteOutcome :=
  let ghAttempt : Option (Except Nat Unit) :=
    fr.gh_asset_id.map (fun _ => deleteReleaseAsset gh)
  { success := true
  , dbDeleted := true
  , ghErrorSwallowed :=
      match ghAttempt with
      | some (Except.error _) => true
      | _ => false
  , sizeUpdate := fr.repo_id.map (fun rid => (rid, -fr.size_mb)) }

/-! ## The cached-size state machine (claims C3/C4) -/

/-- One write to a repository's `size_mb`: either a delta update through
`repoManager.updateRepositorySize`, or a reconciliation write of the remote
aggregate asset size when the drift exceeds the mode's threshold. -/
inductive SizeOp where
  | delta (sizeChangeMb : ℚ)
  | reconcile (assetSizesBytes : List Nat) (thresholdMb : ℚ)

/-- `totalAssetSizeMb` as computed by `github.getRepositoryStats`: the byte
sizes of all release assets summed and converted to MB. -/
def remoteSizeMb (assetSizesBytes : List Nat) : ℚ :=
  bytesToMb (assetSizesBytes.sum : ℚ)

/-- Effect of one size write on the cached counter. -/
def applySizeOp (s : ℚ) : SizeOp → ℚ
  | SizeOp.delta d => updateRepositorySizeCalc s d
  | SizeOp.reconcile ab θ =>
      if |s - remoteSizeMb ab| > θ then remoteSizeMb ab else s

/-- A repository record with a zero `max_size_mb` (representable: the
`repos` schema has no positivity check on the column). -/
def repoZeroMax : Repo :=
  { id := 3, user_id := "u", name := "user_u_bucket_3", size_mb := 0,
    max_size_mb := 0, is_active := true, created_at := 0 }

/-- C2 counterexample: for a repository whose `max_size_mb` is 0, the claim's
condition `size + additional > 0.9 × max` holds (1 > 0) yet
`shouldRotateRepository` returns false, because the code replaces a falsy
maximum by the 800 MB default, giving a 720 MB threshold. -/
theorem C2_counterexample_zero_max :
    shouldRotateRepository repoZeroMax 1 = false ∧
    repoZeroMax.size_mb + 1 > repoZeroMax.max_size_mb * (9 / 10) := by
  constructor
  · simp only [shouldRotateRepository, repoZeroMax]
    norm_num [bytesToMb, MAX_REPO_SIZE_BYTES]
  · norm_num [repoZeroMax]

/-- C2 (amended): `shouldRotateRepository` returns true exactly when the
cached size plus the additional size strictly exceeds 0.9 times the
maximum size, a zero maximum falling back to the configured 800 MB default;
and a repository at 85% of a positive maximum receiving a file adding 10%
triggers rotation, so the coordinator redirects the upload (file record and
size update target the new repository) even though the hard capacity check
would have admitted the file. -/
theorem C2_rotation_policy (repo newRepo : Repo) (addMb : ℚ) :
    (shouldRotateRepository repo addMb = true ↔
      repo.size_mb + addMb >
        (if repo.max_size_mb = 0 then bytesToMb MAX_REPO_SIZE_BYTES
          else repo.max_size_mb) * (9 / 10)) ∧
    (0 < repo.max_size_mb → repo.size_mb = (85 / 100) * repo.max_size_mb →
      addMb = (10 / 100) * repo.max_size_mb →
      shouldRotateRepository repo addMb = true ∧
      repo.size_mb + addMb ≤ repo.max_size_mb ∧
      (uploadFileCore repo newRepo addMb).rotated = true ∧
      (uploadFileCore repo newRepo addMb).fileRepoId = newRepo.id ∧
      (uploadFileCore repo newRepo addMb).sizeUpdateTarget = newRepo.id) := by
  have hiff : shouldRotateRepository repo addMb = true ↔
      repo.size_mb + addMb >
        (if repo.max_size_mb = 0 then bytesToMb MAX_REPO_SIZE_BYTES
          else repo.max_size_mb) * (9 / 10) := by
    simp [shouldRotateRepository]
  refine ⟨hiff, ?_⟩
  intro hpos hsize hadd
  have hne : ¬ repo.max_size_mb = 0 := ne_of_gt hpos
  have hrot : shouldRotateRepository repo addMb = true := by
    rw [hiff, if_neg hne, hsize, hadd]
    nlinarith
  refine ⟨hrot, by rw [hsize, hadd]; nlinarith, ?_, ?_, ?_⟩
  · simp [uploadFileCore, hrot]
  · simp [uploadFileCore, hrot]
  · simp [uploadFileCore, hrot]

/-- A repository at 85% of its 800 MB maximum. -/
def repoHot : Repo :=
  { id := 4, user_id := "u", name := "user_u_bucket_4", size_mb := 680,
    max_size_mb := 800, is_active := true, created_at := 30 }

/-- The freshly created rotation target. -/
def repoNew : Repo :=
  { id := 9, user_id := "u", name := "user_u_bucket_5", size_mb := 0,
    max_size_mb := 800, is_active := true, created_at := 40 }

/-- C2 witness: the 85% + 10% scenario at 800 MB (680 MB used, 80 MB file)
rotates and redirects to the new repository. -/
theorem C2_rotation_policy_witness :
    shouldRotateRepository repoHot 80 = true ∧
    (uploadFileCore repoHot repoNew 80).fileRepoId = repoNew.id :=
  ⟨((C2_rotation_policy repoHot repoNew 80).2 (by norm_num [repoHot])
      (by norm_num [repoHot]) (by norm_num [repoHot])).1,
   ((C2_rotation_policy repoHot repoNew 80).2 (by norm_num [repoHot])
      (by norm_num [repoHot]) (by norm_num [repoHot])).2.2.2.1⟩

/-- C3: every delta update writes `max(0, old + delta)`, and starting from a
nonnegative cached size no sequence of size writes (delta updates and
reconciliation writes) leaves the counter negative. -/
theorem C3_cached_size_nonneg (init : ℚ) (h : 0 ≤ init) (ops : List SizeOp) :
    (∀ s d : ℚ, applySizeOp s (SizeOp.delta d) = max 0 (s + d)) ∧
    0 ≤ ops.foldl applySizeOp init := by
  refine ⟨fun s d => rfl, ?_⟩
  induction ops generalizing init with
  | nil => simpa using h
  | cons op t ih =>
    rw [List.foldl_cons]
    apply ih
    cases op with
    | delta d => exact le_max_left 0 _
    | reconcile ab θ =>
      dsimp only [applySizeOp]
      split
      · unfold remoteSizeMb bytesToMb
        positivity
      · exact h

/-- C3 witness: a delete decrementing by more than the current value (5 MB
from a 2 MB counter) still leaves the counter nonnegative. -/
theorem C3_cached_size_nonneg_witness :
    0 ≤ [SizeOp.delta (-5)].foldl applySizeOp 2 :=
  (C3_cached_size_nonneg 2 (by norm_num) [SizeOp.delta (-5)]).2

/-- C4: a successful upload updates the owning repository (the same record
the file row points at) by exactly `+fileSizeMb` (the clamp cannot bite when
the old size and the file size are nonnegative), and a successful delete
updates the owning repository by `-size_mb`, clamped at zero. -/
theorem C4_counter_deltas (repo newRepo : Repo) (f ownerOld : ℚ) (fr : FileRec)
    (gh : GhDeleteOutcome) (h0 : 0 ≤ ownerOld) (hf : 0 ≤ f) :
    (uploadFileCore repo newRepo f).sizeUpdateDelta = f ∧
    (uploadFileCore repo newRepo f).sizeUpdateTarget =
      (uploadFileCore repo newRepo f).fileRepoId ∧
    updateRepositorySizeCalc ownerOld (uploadFileCore repo newRepo f).sizeUpdateDelta =
      ownerOld + f ∧
    (deleteFileCore fr gh).sizeUpdate = fr.repo_id.map (fun rid => (rid, -fr.size_mb)) ∧
    updateRepositorySizeCalc ownerOld (-fr.size_mb) = max 0 (ownerOld - fr.size_mb) := by
  refine ⟨rfl, rfl, ?_, rfl, ?_⟩
  · have : updateRepositorySizeCalc ownerOld f = ownerOld + f := by
      unfold updateRepositorySizeCalc
      exact max_eq_right (by linarith)
    simpa [uploadFileCore] using this
  · unfold updateRepositorySizeCalc
    rw [sub_eq_add_neg]

/-- A concrete file row for the delete path. -/
def fileX : FileRec :=
  { id := 11, user_id := "u", repo_id := some 4, size_mb := 3, gh_asset_id := some 77 }

/-- C4 witness: uploading a 3 MB file onto a 10 MB counter yields 13 MB, and
deleting `fileX` requests a `-3` MB update on its repository. -/
theorem C4_counter_deltas_witness :
    updateRepositorySizeCalc 10 (uploadFileCore repoHot repoNew 3).sizeUpdateDelta = 13 ∧
    (deleteFileCore fileX GhDeleteOutcome.ok).sizeUpdate = some (4, -3) := by
  have h := C4_counter_deltas repoHot repoNew 3 10 fileX GhDeleteOutcome.ok
    (by norm_num) (by norm_num)
  refine ⟨?_, ?_⟩
  · rw [h.2.2.1]; norm_num
  · rw [h.2.2.2.1]; simp [fileX]

/-- C6: a not-found response from the remote provider is treated as success
by `deleteReleaseAsset`, any remote outcome leaves `deleteFile` successful,
and in every case the metadata deletion and the repository counter decrement
still proceed. -/
theorem C6_idempotent_delete (fr : FileRec) (gh : GhDeleteOutcome) (rid : Nat)
    (hr : fr.repo_id = some rid) :
    deleteReleaseAsset GhDeleteOutcome.notFound = Except.ok () ∧
    (deleteFileCore fr gh).success = true ∧
    (deleteFileCore fr gh).dbDeleted = true ∧
    (deleteFileCore fr gh).sizeUpdate = some (rid, -fr.size_mb) := by
  refine ⟨rfl, rfl, rfl, ?_⟩
  simp [deleteFileCore, hr]

/-- C6 witness: deleting `fileX` when the remote asset is already gone (a
not-found response) still deletes the row and decrements the counter. -/
theorem C6_idempotent_delete_witness :
    (deleteFileCore fileX GhDeleteOutcome.notFound).dbDeleted = true ∧
    (deleteFileCore fileX GhDeleteOutcome.notFound).sizeUpdate = some (4, -3) := by
  have h := C6_idempotent_delete fileX GhDeleteOutcome.notFound 4 (by simp [fileX])
  exact ⟨h.2.2.1, by rw [h.2.2.2]; simp [fileX]⟩

/-- C10: when rotation fires, only `id` and `name` of the in-memory
repository object take the new repository's values; `size_mb`,
`max_size_mb`, `user_id`, `is_active` and `created_at` keep the old
repository's values, the size update targets the new repository's id, and
the reported `sizeAfterUpload` is the old repository's cached size plus the
file size. -/
theorem C10_rotation_mutates_only_id_name (repo newRepo : Repo) (f : ℚ)
    (hrot : shouldRotateRepository repo f = true) :
    (uploadFileCore repo newRepo f).finalRepo.id = newRepo.id ∧
    (uploadFileCore repo newRepo f).finalRepo.name = newRepo.name ∧
    (uploadFileCore repo newRepo f).finalRepo.size_mb = repo.size_mb ∧
    (uploadFileCore repo newRepo f).finalRepo.max_size_mb = repo.max_size_mb ∧
    (uploadFileCore repo newRepo f).finalRepo.user_id = repo.user_id ∧
    (uploadFileCore repo newRepo f).finalRepo.is_active = repo.is_active ∧
    (uploadFileCore repo newRepo f).finalRepo.created_at = repo.created_at ∧
    (uploadFileCore repo newRepo f).sizeUpdateTarget = newRepo.id ∧
    (uploadFileCore repo newRepo f).sizeAfterUpload = repo.size_mb + f := by
  simp [uploadFileCore, hrot]

/-- C10 witness: the 680/800 repository rotating on an 80 MB file keeps its
old cached size in the reported summary (760 MB) while the counter update
targets the new repository. -/
theorem C10_rotation_mutates_only_id_name_witness :
    (uploadFileCore repoHot repoNew 80).finalRepo.size_mb = repoHot.size_mb ∧
    (uploadFileCore repoHot repoNew 80).sizeUpdateTarget = repoNew.id ∧
    (uploadFileCore repoHot repoNew 80).sizeAfterUpload = repoHot.size_mb + 80 := by
  have h := C10_rotation_mutates_only_id_name repoHot repoNew 80 (by
    simp only [shouldRotateRepository, repoHot]
    norm_num)
  exact ⟨h.2.2.1, h.2.2.2.2.2.2.2.1, h.2.2.2.2.2.2.2.2⟩

/-! ## Allocator: lazy repository creation (repoManager.js) -/

/-- The repository row `createNewRepository` persists: `size_mb` initialized
to 0, `max_size_mb` from configuration, active. -/
def newRepoRecord (freshId : Nat) (uid : String) (repoName : String) (now : Nat) : Repo :=
  { id := freshId, user_id := uid, name := repoName, size_mb := 0,
    max_size_mb := bytesToMb MAX_REPO_SIZE_BYTES, is_active := true, created_at := now }

/-- `repoManager.createNewRepository(userId, bucketNumber)`: derive the name,
check existence on the provider (`existsF`), recurse with `bucketNumber + 1`
on collision, else create remotely and persist the record. `fuel` bounds the
collision recursion (the source recursion is unbounded); `none` means fuel
ran out. -/
def createNewRepository (existsF : String → Bool) (uid : String) (freshId now : Nat) :
    Nat → Nat → Option Repo
  | _, 0 => none
  | bucket, Nat.succ fuel =>
      let repoName := generateRepoName uid bucket
      if existsF repoName then
        createNewRepository existsF uid freshId now (bucket + 1) fuel
      else some (newRepoRecord freshId uid repoName now)

namespace RepoManager

/-- `repoManager.getAvailableRepository(userId, fileSizeBytes)`: convert to
MB, ask the record store for a qualifying repository; if none, the next
bucket number is the count of the user's repositories plus one and a new
repository is created. -/
def getAvailableRepository (db : List Repo) (existsF : String → Bool) (uid : String)
    (fileSizeBytes : ℚ) (freshId now fuel : Nat) : Option Repo :=
  let fileSizeMb := bytesToMb fileSizeBytes
  match Supabase.getAvailableRepository db uid fileSizeMb with
  | some r => some r
  | none =>
      createNewRepository existsF uid freshId now ((userRepos db uid).length + 1) fuel

end RepoManager

/-- C5: the allocator's `getAvailableRepository` never reports "no space":
it returns the tracker's qualifying repository when one exists, and
otherwise creates a new repository at sequence number `count + 1`
(initialized empty), so it always produces a destination repository.
The hypotheses say the first candidate name is free and the collision
recursion has fuel, i.e. remote creation succeeds. -/
theorem C5_allocator_always_allocates (db : List Repo) (existsF : String → Bool)
    (uid : String) (fileSizeBytes : ℚ) (freshId now fuel : Nat)
    (hfree : existsF (generateRepoName uid ((userRepos db uid).length + 1)) = false)
    (hfuel : 0 < fuel) :
    ∃ r : Repo,
      RepoManager.getAvailableRepository db existsF uid fileSizeBytes freshId now fuel =
        some r ∧
      (Supabase.getAvailableRepository db uid (bytesToMb fileSizeBytes) = some r ∨
        (Supabase.getAvailableRepository db uid (bytesToMb fileSizeBytes) = none ∧
          r = newRepoRecord freshId uid
                (generateRepoName uid ((userRepos db uid).length + 1)) now ∧
          r.size_mb = 0)) := by
  cases hs : Supabase.getAvailableRepository db uid (bytesToMb fileSizeBytes) with
  | some r =>
    refine ⟨r, ?_, Or.inl rfl⟩
    simp [RepoManager.getAvailableRepository, hs]
  | none =>
    cases fuel with
    | zero => exact absurd hfuel (by simp)
    | succ fuel2 =>
      refine ⟨newRepoRecord freshId uid
          (generateRepoName uid ((userRepos db uid).length + 1)) now,
        ?_, Or.inr ⟨rfl, rfl, rfl⟩⟩
      simp [RepoManager.getAvailableRepository, hs, createNewRepository, hfree]

/-- A single full repository: 800 of 800 MB used. -/
def repoFull : Repo :=
  { id := 5, user_id := "u", name := "user_u_bucket_1", size_mb := 800,
    max_size_mb := 800, is_active := true, created_at := 1 }

def dbFull : List Repo := [repoFull]

/-- C5 witness: a user whose only repository is full still gets a
destination for a 1 MB (1048576-byte) file — a fresh bucket-2 repository. -/
theorem C5_allocator_always_allocates_witness :
    RepoManager.getAvailableRepository dbFull (fun _ => false) "u" 1048576 7 50 1 =
      some (newRepoRecord 7 "u"
        (generateRepoName "u" ((userRepos dbFull "u").length + 1)) 50) := by
  obtain ⟨r, hr, hcase⟩ :=
    C5_allocator_always_allocates dbFull (fun _ => false) "u" 1048576 7 50 1 rfl
      (by norm_num)
  have hnone : Supabase.getAvailableRepository dbFull "u" (bytesToMb 1048576) = none := by
    simp only [Supabase.getAvailableRepository, sortedActiveRepos, userActiveRepos,
      dbFull, repoFull]
    norm_num [List.insertionSort, List.orderedInsert, hasSpace, bytesToMb]
  rcases hcase with hsome | ⟨_, hre, _⟩
  · rw [hnone] at hsome
    cases hsome
  · rw [hre] at hr
    exact hr

/-! ## Reconciliation (routes/repos.js POST /:id/sync and
repoManager.validateAndSyncRepositories) -/

/-- Result of the single-repository sync endpoint: the repository's size
after the call, the `wasUpdated` flag and the reported difference. -/
structure SyncResult where
  newSizeMb : ℚ
  wasUpdated : Bool
  sizeDifferenceMb : ℚ
deriving DecidableEq

/-- `POST /api/repos/:id/sync`: compute
`|repository.size_mb - githubStats.totalAssetSizeMb|` and overwrite the
cached size with the remote value only when the difference exceeds 1 MB;
report the difference and whether an update happened. -/
def syncRepositorySize (cachedMb remoteMb : ℚ) : SyncResult :=
  if |cachedMb - remoteMb| > 1 then
    { newSizeMb := remoteMb, wasUpdated := true, sizeDifferenceMb := |cachedMb - remoteMb| }
  else
    { newSizeMb := cachedMb, wasUpdated := false, sizeDifferenceMb := |cachedMb - remoteMb| }

/-- An entry of `validationResults.synced`: old size, new size, difference. -/
structure SyncedEntry where
  oldSize : ℚ
  newSize : ℚ
  difference : ℚ
deriving DecidableEq

/-- One repository's step of `validateAndSyncRepositories`: overwrite and
report only when the difference exceeds 10 MB. -/
def bulkValidateStep (cachedMb remoteMb : ℚ) : ℚ × Option SyncedEntry :=
  if |cachedMb - remoteMb| > 10 then
    (remoteMb, some { oldSize := cachedMb, newSize := remoteMb,
                      difference := |cachedMb - remoteMb| })
  else (cachedMb, none)

/-- C7: both reconciliation paths overwrite the cached size with the remote
aggregate size exactly when the absolute difference exceeds the mode's
threshold (1 MB for single sync, 10 MB for the bulk pass) and report the
delta; a 100 MB cached value against an 85 MB true size updates in both
modes with a 15 MB difference. -/
theorem C7_reconciliation_thresholds (cached remote : ℚ) :
    ((syncRepositorySize cached remote).wasUpdated = true ↔ |cached - remote| > 1) ∧
    (syncRepositorySize cached remote).newSizeMb =
      (if |cached - remote| > 1 then remote else cached) ∧
    (syncRepositorySize cached remote).sizeDifferenceMb = |cached - remote| ∧
    ((bulkValidateStep cached remote).2.isSome = true ↔ |cached - remote| > 10) ∧
    (bulkValidateStep cached remote).1 =
      (if |cached - remote| > 10 then remote else cached) ∧
    syncRepositorySize 100 85 =
      { newSizeMb := 85, wasUpdated := true, sizeDifferenceMb := 15 } ∧
    bulkValidateStep 100 85 =
      (85, some { oldSize := 100, newSize := 85, difference := 15 }) := by
  have h15 : |(100 : ℚ) - 85| = 15 := by
    rw [show (100 : ℚ) - 85 = 15 by norm_num]
    exact abs_of_pos (by norm_num)
  refine ⟨?_, ?_, ?_, ?_, ?_, ?_, ?_⟩
  · by_cases hc : |cached - remote| > 1 <;> simp [syncRepositorySize, hc]
  · by_cases hc : |cached - remote| > 1 <;> simp [syncRepositorySize, hc]
  · by_cases hc : |cached - remote| > 1 <;> simp [syncRepositorySize, hc]
  · by_cases hc : |cached - remote| > 10 <;> simp [bulkValidateStep, hc]
  · by_cases hc : |cached - remote| > 10 <;> simp [bulkValidateStep, hc]
  · simp only [syncRepositorySize, h15]
    rw [if_pos (by norm_num)]
  · simp only [bulkValidateStep, h15]
    rw [if_pos (by norm_num)]

/-! ## Batch upload (fileManager.uploadMultipleFiles) -/

/-- The ok-projection of a per-file outcome. -/
def okPart {E R : Type} : Except E R → Option R
  | Except.ok r => some r
  | Except.error _ => none

/-- The error-projection of a per-file outcome. -/
def errPart {E R : Type} : Except E R → Option E
  | Except.ok _ => none
  | Except.error e => some e

/-- The itemized result of a batch upload. -/
structure BatchResult (R E : Type) where
  success : Bool
  successful : List R
  failed : List E

/-- The sequential loop of `uploadMultipleFiles`: each file's success or
failure is collected independently; one failure does not stop later files. -/
def batchLoop {F R E : Type} (u : F → Except E R) : List F → List R × List E
  | [] => ([], [])
  | f :: rest =>
      let tail := batchLoop u rest
      match u f with
      | Except.ok r => (r :: tail.1, tail.2)
      | Except.error e => (tail.1, e :: tail.2)

/-- `fileManager.uploadMultipleFiles(files, userId)`: throws a validation
error on an empty list; otherwise runs the sequential loop and returns the
lists with `success = (failed.length === 0)`. -/
def uploadMultipleFiles {F R E : Type} (u : F → Except E R) (files : List F) :
    Except String (BatchResult R E) :=
  if files.isEmpty then Except.error "No files provided"
  else
    let results := batchLoop u files
    Except.ok { success := decide (results.2.length = 0),
                successful := results.1, failed := results.2 }

/-- The loop splits the files into the in-order ok-results and in-order
errors. -/
theorem batchLoop_eq {F R E : Type} (u : F → Except E R) (files : List F) :
    batchLoop u files = (files.filterMap (fun f => okPart (u f)),
      files.filterMap (fun f => errPart (u f))) := by
  induction files with
  | nil => rfl
  | cons f rest ih =>
    simp only [batchLoop, ih]
    cases hu : u f <;> simp [hu, okPart, errPart]

/-- Every file lands in exactly one of the two lists. -/
theorem batchLoop_length {F R E : Type} (u : F → Except E R) (files : List F) :
    (batchLoop u files).1.length + (batchLoop u files).2.length = files.length := by
  induction files with
  | nil => rfl
  | cons f rest ih =>
    simp only [batchLoop]
    cases hu : u f <;> simp only [List.length_cons] <;> omega

/-- C8 counterexample: for the empty input list — a list with zero failed
items — `uploadMultipleFiles` does not return itemized lists with a true
success flag; it throws a validation error. -/
theorem C8_counterexample_empty_batch :
    uploadMultipleFiles (fun _ : Unit => (Except.ok () : Except Unit Unit))
      ([] : List Unit) = Except.error "No files provided" := rfl

/-- C8 (amended): for every non-empty list of input files, batch upload
processes items independently and returns itemized success and failure
lists (the in-order ok- and error-outcomes of the per-item uploads, which
together exhaust the input) with an overall success flag that is true
exactly when zero items failed. -/
theorem C8_batch_partial_failure {F R E : Type} (u : F → Except E R)
    (files : List F) (hne : files ≠ []) :
    ∃ b : BatchResult R E, uploadMultipleFiles u files = Except.ok b ∧
      (b.success = true ↔ b.failed = []) ∧
      b.successful.length + b.failed.length = files.length ∧
      b.successful = files.filterMap (fun f => okPart (u f)) ∧
      b.failed = files.filterMap (fun f => errPart (u f)) := by
  have hemp : files.isEmpty = false := by
    cases files with
    | nil => exact absurd rfl hne
    | cons f rest => rfl
  refine ⟨{ success := decide ((batchLoop u files).2.length = 0),
            successful := (batchLoop u files).1, failed := (batchLoop u files).2 },
    ?_, ?_, ?_, ?_, ?_⟩
  · rw [uploadMultipleFiles, hemp]
    simp
  · simp only [decide_eq_true_eq]
    exact List.length_eq_zero
  · exact batchLoop_length u files
  · exact congrArg Prod.fst (batchLoop_eq u files)
  · exact congrArg Prod.snd (batchLoop_eq u files)

/-- A 3-file batch where only the 2nd file fails validation. -/
def u3 : Nat → Except String Nat :=
  fun n => if n = 1 then Except.error "Invalid file type" else Except.ok n

/-- C8 witness: 3 files with the 2nd failing yields 2 successful, 1 failed,
overall success false. -/
theorem C8_batch_partial_failure_witness :
    uploadMultipleFiles u3 [0, 1, 2] = Except.ok
      { success := false, successful := [0, 2], failed := ["Invalid file type"] } := by
  obtain ⟨b, hb, hsucc, hlen, hs, hf⟩ :=
    C8_batch_partial_failure u3 [0, 1, 2] (by simp)
  have hs2 : b.successful = [0, 2] := by
    rw [hs]
    simp [u3, okPart]
  have hf2 : b.failed = ["Invalid file type"] := by
    rw [hf]
    simp [u3, errPart]
  have hsu : b.success = false := by
    rcases Bool.eq_false_or_eq_true b.success with h | h
    · rw [hsucc.mp h] at hf2
      cases hf2
    · exact h
  rw [hb]
  cases b
  simp_all

/-! ## Retry with exponential backoff (helpers.js, github.js) -/

/-- `Helpers.exponentialBackoff(attempt, baseDelay)` = `baseDelay * 2^attempt`. -/
def exponentialBackoff (attempt baseDelay : Nat) : Nat :=
  baseDelay * 2 ^ attempt

/-- Trace of one `retryWithBackoff` run: the returned (or thrown) result,
how many times the wrapped function was invoked, and the delays slept
between invocations. `f k` is the outcome of the k-th invocation. -/
structure RetryTrace (E A : Type) where
  result : Except E A
  attemptsMade : Nat
  delaysMs : List Nat

/-- The loop body of `Helpers.retryWithBackoff`: `attempt` is the current
index, `remaining` how many loop iterations are still allowed after this
one (`maxRetries - attempt`). On the last allowed iteration the outcome is
returned or rethrown; otherwise a failure sleeps
`exponentialBackoff(attempt, baseDelay)` and continues. -/
def retryLoop {E A : Type} (f : Nat → Except E A) (baseDelay : Nat) :
    Nat → Nat → RetryTrace E A
  | attempt, 0 => { result := f attempt, attemptsMade := 1, delaysMs := [] }
  | attempt, Nat.succ remaining =>
      match f attempt with
      | Except.ok a => { result := Except.ok a, attemptsMade := 1, delaysMs := [] }
      | Except.error _ =>
          let rest := retryLoop f baseDelay (attempt + 1) remaining
          { result := rest.result, attemptsMade := rest.attemptsMade + 1,
            delaysMs := exponentialBackoff attempt baseDelay :: rest.delaysMs }

/-- `Helpers.retryWithBackoff(fn, maxRetries, baseDelay)`: attempts run from
0 to `maxRetries` inclusive. -/
def retryWithBackoff {E A : Type} (f : Nat → Except E A) (maxRetries baseDelay : Nat) :
    RetryTrace E A :=
  retryLoop f baseDelay 0 maxRetries

/-- `github.createRepositoryWithRetry`: the only caller of
`retryWithBackoff`, with `MAX_RETRIES` and a 1000 ms base delay. -/
def createRepositoryWithRetry {E A : Type} (f : Nat → Except E A) : RetryTrace E A :=
  retryWithBackoff f MAX_RETRIES RETRY_DELAY_MS

/-- `github.uploadReleaseAsset`: a single API call, no retry wrapper. -/
def uploadReleaseAssetCall {E A : Type} (f : Nat → Except E A) : RetryTrace E A :=
  { result := f 0, attemptsMade := 1, delaysMs := [] }

/-- `github.deleteReleaseAsset`: a single API call (not-found mapped to
success), no retry wrapper. -/
def deleteReleaseAssetCall (g : Nat → GhDeleteOutcome) : RetryTrace Nat Unit :=
  { result := deleteReleaseAsset (g 0), attemptsMade := 1, delaysMs := [] }

/-- The loop makes at most `remaining + 1` invocations. -/
theorem retryLoop_attempts_le {E A : Type} (f : Nat → Except E A) (baseDelay : Nat) :
    ∀ remaining attempt, (retryLoop f baseDelay attempt remaining).attemptsMade ≤
      remaining + 1 := by
  intro remaining
  induction remaining with
  | zero => intro attempt; exact le_refl _
  | succ r ih =>
    intro attempt
    unfold retryLoop
    cases f attempt with
    | ok a => simp
    | error e =>
      have := ih (attempt + 1)
      simp only
      omega

/-- C9 counterexample: with `MAX_RETRIES = 3`, a creation call that always
fails is invoked 4 times, not at most 3 — the constant bounds the retries
after the initial attempt, not the attempts. -/
theorem C9_counterexample_four_invocations :
    (createRepositoryWithRetry (fun _ => (Except.error 500 : Except Nat Unit))).attemptsMade
      = 4 ∧
    ¬ (createRepositoryWithRetry
        (fun _ => (Except.error 500 : Except Nat Unit))).attemptsMade ≤ 3 := by
  constructor
  · rfl
  · intro h
    simp only [show (createRepositoryWithRetry
        (fun _ => (Except.error 500 : Except Nat Unit))).attemptsMade = 4 from rfl] at h
    omega

/-- C9 (amended): remote repository creation — and only it; asset upload and
asset delete are single calls — goes through `retryWithBackoff` with
`MAX_RETRIES = 3` retries after the initial attempt (at most 4 invocations)
and a 1000 ms base delay that doubles per attempt: an immediate success
makes one call with no delay, three failures followed by a success still
succeed after delays 1000, 2000, 4000 ms, and four failures surface the
last error. -/
theorem C9_retry_policy {E A : Type} (f : Nat → Except E A) (g : Nat → GhDeleteOutcome)
    (e0 e1 e2 e3 : E) (a : A) :
    (∀ n b : Nat, exponentialBackoff (n + 1) b = 2 * exponentialBackoff n b) ∧
    createRepositoryWithRetry f = retryWithBackoff f 3 1000 ∧
    (createRepositoryWithRetry f).attemptsMade ≤ MAX_RETRIES + 1 ∧
    (f 0 = Except.ok a → createRepositoryWithRetry f =
      { result := Except.ok a, attemptsMade := 1, delaysMs := [] }) ∧
    (f 0 = Except.error e0 → f 1 = Except.error e1 → f 2 = Except.error e2 →
      f 3 = Except.ok a → createRepositoryWithRetry f =
        { result := Except.ok a, attemptsMade := 4, delaysMs := [1000, 2000, 4000] }) ∧
    (f 0 = Except.error e0 → f 1 = Except.error e1 → f 2 = Except.error e2 →
      f 3 = Except.error e3 → (createRepositoryWithRetry f).result = Except.error e3) ∧
    uploadReleaseAssetCall f = { result := f 0, attemptsMade := 1, delaysMs := [] } ∧
    (deleteReleaseAssetCall g).attemptsMade = 1 := by
  refine ⟨?_, rfl, retryLoop_attempts_le f RETRY_DELAY_MS MAX_RETRIES 0, ?_, ?_, ?_,
    rfl, rfl⟩
  · intro n b
    unfold exponentialBackoff
    rw [pow_succ]
    ring
  · intro h0
    simp [createRepositoryWithRetry, retryWithBackoff, MAX_RETRIES, RETRY_DELAY_MS,
      retryLoop, h0]
  · intro h0 h1 h2 h3
    simp [createRepositoryWithRetry, retryWithBackoff, MAX_RETRIES, RETRY_DELAY_MS,
      retryLoop, h0, h1, h2, h3, exponentialBackoff]
  · intro h0 h1 h2 h3
    simp [createRepositoryWithRetry, retryWithBackoff, MAX_RETRIES, RETRY_DELAY_MS,
      retryLoop, h0, h1, h2, h3]

/-- A creation call that fails three times, then succeeds. -/
def flaky : Nat → Except Nat Nat :=
  fun n => if n < 3 then Except.error n else Except.ok 42

/-- C9 witness: the flaky creation call is retried through delays 1000,
2000, 4000 ms and succeeds on its 4th invocation, while an asset upload
against the same outcomes is a single call. -/
theorem C9_retry_policy_witness :
    createRepositoryWithRetry flaky =
      { result := Except.ok 42, attemptsMade := 4, delaysMs := [1000, 2000, 4000] } ∧
    (uploadReleaseAssetCall flaky).attemptsMade = 1 :=
  ⟨(C9_retry_policy flaky (fun _ => GhDeleteOutcome.ok) 0 1 2 0 42).2.2.2.2.1
      rfl rfl rfl rfl,
   congrArg RetryTrace.attemptsMade
     (C9_retry_policy flaky (fun _ => GhDeleteOutcome.ok) 0 1 2 0 42).2.2.2.2.2.2.1⟩

end FreeDrive
